import Mathlib

/-!
Verification of the inventory component `UCpp_AC_Inventory`
(`Source/Cpp_InventorySystem/Private/Components/Cpp_AC_Inventory.cpp`)
against its natural-language specification.

Pointers (`UItemBase*`) are modelled as indices (`Nat`) into an explicit
item store (the `Heap` field); a possibly-null pointer argument is an
`Option Nat`.  Operations that dereference a pointer argument return an
`Except Unit _`, where `Except.error ()` marks a dereference of a null or
dangling pointer (undefined behaviour in the C++ source).  The `float`
weights of the source are modelled as exact rationals, and
`OnInventoryUpdated.Broadcast()` is modelled by the counter `Broadcasts`.
`ItemBase.cpp` is not part of the sources, so the `UItemBase` accessors it
defines are modelled from the specification; each such definition carries
a doc comment saying so.
-/

/-- Item state (`UItemBase`).  The fields mirror `ID`, `Quantity`,
`ItemNumericData.Weight`, `ItemNumericData.MaxStackSize`,
`ItemNumericData.bIsStackable`, `ItemTextData.ItemName`, `bIsCopy`,
`bIsPickup`, and the `OwningInventory` back-reference kept as the flag
`Owned`. -/
structure ItemData where
  ID : Int
  Quantity : Int
  Weight : Rat
  MaxStackSize : Int
  bIsStackable : Bool
  ItemName : String
  bIsCopy : Bool
  bIsPickup : Bool
  Owned : Bool
deriving Repr, DecidableEq

/-- Modelled from the spec: `UItemBase::GetItemSingleWeight` is not under
`src/`; §4.1 says it returns the per-unit weight. -/
def ItemData.GetItemSingleWeight (d : ItemData) : Rat := d.Weight

/-- Modelled from the spec: `UItemBase::GetItemStackWeight` is not under
`src/`; the stack weight is `quantity × per-unit weight` (§3). -/
def ItemData.GetItemStackWeight (d : ItemData) : Rat := d.Quantity * d.Weight

/-- Modelled from the spec: `UItemBase::IsFullItemStack` is not under
`src/`; §4.1 says `quantity == maxStackSize`. -/
def ItemData.IsFullItemStack (d : ItemData) : Bool := d.Quantity == d.MaxStackSize

/-- The quantity ceiling enforced by `SetQuantity`: `maxStackSize` when
stackable, `1` otherwise (§3: quantity is treated as 1 when
non-stackable). -/
def ItemData.quantityCap (d : ItemData) : Int :=
  if d.bIsStackable then d.MaxStackSize else 1

/-- Modelled from the spec: `UItemBase::SetQuantity` is not under `src/`;
§4.1 says it clamps to `[0, maxStackSize]` when stackable and treats the
quantity as at most 1 otherwise (§3), with no side effects beyond the
field. -/
def ItemData.SetQuantity (d : ItemData) (n : Int) : ItemData :=
  { d with Quantity := max 0 (min n d.quantityCap) }

/-- Modelled from the spec: `UItemBase::CreateItemCopy` is not under
`src/`; §4.1 says it produces a new item with identical kind, weight and
stack data, `isCopy = true` and no owner. -/
def ItemData.CreateItemCopy (d : ItemData) : ItemData :=
  { d with bIsCopy := true, bIsPickup := false, Owned := false }

/-- Modelled from the spec: `UItemBase::ResetItemFlags` is not under
`src/`; the provenance flags are cleared when an instance is absorbed
(§3 lifecycle). -/
def ItemData.ResetItemFlags (d : ItemData) : ItemData :=
  { d with bIsCopy := false, bIsPickup := false }

/-- The outcome tag of `FItemAddResult` (`EItemAddResult`). -/
inductive AddOutcome where
  | AddedNone
  | AddedSome
  | AddedAll
deriving Repr, DecidableEq

/-- `FItemAddResult`: outcome tag, actual amount added, message. -/
structure FItemAddResult where
  OperationResult : AddOutcome
  ActualAmountAdded : Int
  ResultMessage : String
deriving Repr, DecidableEq

/-- `FItemAddResult::AddedNone`. -/
def FItemAddResult.AddedNone (msg : String) : FItemAddResult :=
  ⟨AddOutcome.AddedNone, 0, msg⟩

/-- `FItemAddResult::AddedSome`. -/
def FItemAddResult.AddedSome (n : Int) (msg : String) : FItemAddResult :=
  ⟨AddOutcome.AddedSome, n, msg⟩

/-- `FItemAddResult::AddedAll`. -/
def FItemAddResult.AddedAll (n : Int) (msg : String) : FItemAddResult :=
  ⟨AddOutcome.AddedAll, n, msg⟩

/-- State of one `UCpp_AC_Inventory` component.  `Heap` is the item
store addressed by references; `InventoryContents`, `InventoryTotalWeight`,
`InventorySlotsCapacity` and `InventoryWeightCapacity` mirror the fields of
the component; `HasOwner` models `GetOwner() != nullptr`; `Broadcasts`
counts `OnInventoryUpdated.Broadcast()` calls. -/
structure Inventory where
  Heap : List ItemData
  InventoryContents : List Nat
  InventoryTotalWeight : Rat
  InventorySlotsCapacity : Int
  InventoryWeightCapacity : Rat
  HasOwner : Bool
  Broadcasts : Nat
deriving Repr, DecidableEq

/-- `GetWeightCapacity` accessor. -/
def GetWeightCapacity (inv : Inventory) : Rat := inv.InventoryWeightCapacity

/-- `UCpp_AC_Inventory::FindMatchingItem` (lines 30–35): null-guarded
pointer-containment query; `const`, so it is a pure function of the
state. -/
def FindMatchingItem (inv : Inventory) (InItem : Option Nat) :
    Except Unit (Option Nat) :=
  match InItem with
  | some r =>
    if r ∈ inv.InventoryContents then Except.ok (some r) else Except.ok none
  | none => Except.ok none

/-- `UCpp_AC_Inventory::FindNextItemByID` (lines 37–46): null-guarded;
`FindByKey` with the `ID`-based `operator==` of `UItemBase` (§4.1:
items compare equal by `ID`); `const`. -/
def FindNextItemByID (inv : Inventory) (InItem : Option Nat) :
    Except Unit (Option Nat) :=
  match InItem with
  | none => Except.ok none
  | some r =>
    match inv.Heap[r]? with
    | none => Except.error ()
    | some d =>
      Except.ok (inv.InventoryContents.find? (fun c =>
        match inv.Heap[c]? with
        | some cd => cd.ID == d.ID
        | none => false))

/-- `UCpp_AC_Inventory::FindNextPartialStack` (lines 48–66):
`FindByPredicate` with the predicate
`InventoryItem->ID == InItem->ID && !InventoryItem->IsFullItemStack()`.
The source has no null guard on `InItem`: whenever `InventoryContents` is
nonempty the predicate dereferences `InItem`, so a null argument is
undefined behaviour, modelled as `Except.error ()`. -/
def FindNextPartialStack (inv : Inventory) (InItem : Option Nat) :
    Except Unit (Option Nat) :=
  if inv.InventoryContents.isEmpty then Except.ok none
  else
    match InItem with
    | none => Except.error ()
    | some r =>
      match inv.Heap[r]? with
      | none => Except.error ()
      | some d =>
        Except.ok (inv.InventoryContents.find? (fun c =>
          match inv.Heap[c]? with
          | some cd => cd.ID == d.ID && !cd.IsFullItemStack
          | none => false))

/-- `UCpp_AC_Inventory::RemoveSingleInstanceOfItem` (lines 68–72):
`RemoveSingle` on the array (first occurrence of the given instance),
then `Broadcast`.  The source adjusts neither the cached weight nor any
quantity. -/
def RemoveSingleInstanceOfItem (inv : Inventory) (ItemToRemove : Nat) :
    Inventory :=
  { inv with
      InventoryContents := inv.InventoryContents.erase ItemToRemove,
      Broadcasts := inv.Broadcasts + 1 }

/-- `UCpp_AC_Inventory::RemoveAmountOfItem` (lines 74–84). -/
def RemoveAmountOfItem (inv : Inventory) (InItem : Nat) (AmountToRemove : Int) :
    Except Unit (Inventory × Int) :=
  match inv.Heap[InItem]? with
  | none => Except.error ()
  | some d =>
    let ActualAmountToRemove := min AmountToRemove d.Quantity
    Except.ok
      ({ inv with
          Heap := inv.Heap.set InItem
            (d.SetQuantity (d.Quantity - ActualAmountToRemove)),
          InventoryTotalWeight := inv.InventoryTotalWeight -
            (ActualAmountToRemove : Rat) * d.GetItemSingleWeight,
          Broadcasts := inv.Broadcasts + 1 },
        ActualAmountToRemove)

/-- `UCpp_AC_Inventory::AddNewItem` (lines 177–195).  In the
`bIsCopy || bIsPickup` branch the given instance itself is absorbed
(flags reset); otherwise a fresh copy is allocated at the end of the
store.  Either way the owner is set, the quantity set to `AddAmount`,
the instance appended to `InventoryContents`, the cached weight increased
by the new instance's stack weight, and the update broadcast. -/
def AddNewItem (inv : Inventory) (InItem : Nat) (AddAmount : Int) :
    Except Unit Inventory :=
  match inv.Heap[InItem]? with
  | none => Except.error ()
  | some d =>
    if d.bIsCopy || d.bIsPickup then
      let NewItem := { d.ResetItemFlags.SetQuantity AddAmount with Owned := true }
      Except.ok
        { inv with
            Heap := inv.Heap.set InItem NewItem,
            InventoryContents := inv.InventoryContents ++ [InItem],
            InventoryTotalWeight :=
              inv.InventoryTotalWeight + NewItem.GetItemStackWeight,
            Broadcasts := inv.Broadcasts + 1 }
    else
      let NewItem := { d.CreateItemCopy.SetQuantity AddAmount with Owned := true }
      Except.ok
        { inv with
            Heap := inv.Heap ++ [NewItem],
            InventoryContents := inv.InventoryContents ++ [inv.Heap.length],
            InventoryTotalWeight :=
              inv.InventoryTotalWeight + NewItem.GetItemStackWeight,
            Broadcasts := inv.Broadcasts + 1 }

/-- `UCpp_AC_Inventory::SplitExistingStack` (lines 86–91). -/
def SplitExistingStack (inv : Inventory) (InItem : Nat) (AmountToSplit : Int) :
    Except Unit Inventory :=
  if ¬((inv.InventoryContents.length : Int) + 1 > inv.InventorySlotsCapacity) then do
    let r1 ← RemoveAmountOfItem inv InItem AmountToSplit
    AddNewItem r1.1 InItem AmountToSplit
  else Except.ok inv

/-- `UCpp_AC_Inventory::CalculateWeightAddAmount` (lines 93–103). -/
def CalculateWeightAddAmount (inv : Inventory) (InItem : Nat) (AddAmount : Int) :
    Except Unit Int :=
  match inv.Heap[InItem]? with
  | none => Except.error ()
  | some d =>
    let WeightMaxAddAmount : Int :=
      ⌊(GetWeightCapacity inv - inv.InventoryTotalWeight) / d.GetItemSingleWeight⌋
    if WeightMaxAddAmount ≥ AddAmount then Except.ok AddAmount
    else Except.ok WeightMaxAddAmount

/-- `UCpp_AC_Inventory::CalculateNumberForFullStack` (lines 105–108). -/
def CalculateNumberForFullStack (inv : Inventory) (StackableItem : Nat)
    (InitialAddAmount : Int) : Except Unit Int :=
  match inv.Heap[StackableItem]? with
  | none => Except.error ()
  | some d => Except.ok (min InitialAddAmount (d.MaxStackSize - d.Quantity))

/-- `SMALL_NUMBER`, the default tolerance of `FMath::IsNearlyZero`. -/
def SMALL_NUMBER : Rat := 1 / 100000000

/-- `FMath::IsNearlyZero` with its default tolerance. -/
def IsNearlyZero (x : Rat) : Bool := decide (|x| ≤ SMALL_NUMBER)

/-- Message of the weight rejection of `HandleNonStackableItems`
(line 115), with `ItemName` substituted for the placeholder. -/
def MsgNoWeight (name : String) : String :=
  "Could not add " ++ name ++ " to the inventory. Item Has No Weight!"

/-- Message of the weight-capacity rejection (line 123). -/
def MsgOverflowWeight (name : String) : String :=
  "Could not add " ++ name ++ " to the inventory. Item overflows weight limit!"

/-- Message of the slot-capacity rejection (line 130). -/
def MsgNoFreeSlot (name : String) : String :=
  "Could not add " ++ name ++ " to the inventory. No Free Inventory Slot!"

/-- Success message of `HandleNonStackableItems` (line 137). -/
def MsgAddedNonStackable (name : String) : String :=
  "Successfully added " ++ name ++ " to the inventory!"

/-- `AddedAll` message of the stackable path of `HandleAddItem`
(line 160). -/
def MsgAddedAllStackable (name : String) (n : Int) : String :=
  "Successfully added " ++ name ++ " " ++ toString n ++ " to the inventory!"

/-- `AddedSome` message of the stackable path of `HandleAddItem`
(line 165). -/
def MsgAddedSomeStackable (name : String) (n : Int) : String :=
  "Could not add all " ++ name ++ " to the inventory. Added " ++ toString n ++
    " " ++ name ++ " instead!"

/-- `AddedNone` message of the stackable path of `HandleAddItem`
(line 170). -/
def MsgNoSlotsInvalid (name : String) : String :=
  "Could not add " ++ name ++ " to the inventory. No Remaining Slots / Invalid Item!"

/-- `AddedNone` message of the missing-owner rejection (line 174). -/
def MsgNoOwner : String :=
  "Could not add item to the inventory. No Owner Found!"

/-- `UCpp_AC_Inventory::HandleNonStackableItems` (lines 110–139). -/
def HandleNonStackableItems (inv : Inventory) (InItem : Nat) :
    Except Unit (Inventory × FItemAddResult) :=
  match inv.Heap[InItem]? with
  | none => Except.error ()
  | some d =>
    if IsNearlyZero d.GetItemSingleWeight = true ∨ d.GetItemSingleWeight < 0 then
      Except.ok (inv, FItemAddResult.AddedNone (MsgNoWeight d.ItemName))
    else if inv.InventoryTotalWeight + d.GetItemSingleWeight > GetWeightCapacity inv then
      Except.ok (inv, FItemAddResult.AddedNone (MsgOverflowWeight d.ItemName))
    else if (inv.InventoryContents.length : Int) + 1 > inv.InventorySlotsCapacity then
      Except.ok (inv, FItemAddResult.AddedNone (MsgNoFreeSlot d.ItemName))
    else do
      let inv1 ← AddNewItem inv InItem 1
      Except.ok (inv1, FItemAddResult.AddedAll 1 (MsgAddedNonStackable d.ItemName))

/-- `UCpp_AC_Inventory::HandleStackableItems` (lines 141–144): the body in
the source is a stub that performs no mutation and returns `0`. -/
def HandleStackableItems (inv : Inventory) (InItem : Nat) (AddAmount : Int) :
    Inventory × Int :=
  (inv, 0)

/-- `UCpp_AC_Inventory::HandleAddItem` (lines 146–175). -/
def HandleAddItem (inv : Inventory) (InItem : Nat) :
    Except Unit (Inventory × FItemAddResult) :=
  if inv.HasOwner then
    match inv.Heap[InItem]? with
    | none => Except.error ()
    | some d =>
      let InitialRequestedAddAmount := d.Quantity
      if !d.bIsStackable then
        HandleNonStackableItems inv InItem
      else
        let Stackable := HandleStackableItems inv InItem InitialRequestedAddAmount
        if Stackable.2 = InitialRequestedAddAmount then
          Except.ok (Stackable.1, FItemAddResult.AddedAll InitialRequestedAddAmount
            (MsgAddedAllStackable d.ItemName Stackable.2))
        else if Stackable.2 < InitialRequestedAddAmount ∧ Stackable.2 > 0 then
          Except.ok (Stackable.1, FItemAddResult.AddedSome Stackable.2
            (MsgAddedSomeStackable d.ItemName Stackable.2))
        else
          Except.ok (Stackable.1, FItemAddResult.AddedNone (MsgNoSlotsInvalid d.ItemName))
  else Except.ok (inv, FItemAddResult.AddedNone MsgNoOwner)

/-- Weight contributed by the item stored at reference `r` (0 for a
dangling reference; all references appended to `InventoryContents` by the
operations are valid). -/
def entryWeight (Heap : List ItemData) (r : Nat) : Rat :=
  match Heap[r]? with
  | some d => d.GetItemStackWeight
  | none => 0

/-- The true total weight of the container: the sum over
`InventoryContents` of `quantity × per-unit weight`. -/
def trueWeight (inv : Inventory) : Rat :=
  (inv.InventoryContents.map (entryWeight inv.Heap)).sum

/-- The cached-weight invariant of the specification. -/
def WeightInvariant (inv : Inventory) : Prop :=
  inv.InventoryTotalWeight = trueWeight inv

/-- All content references point into the store. -/
def Inventory.wfRefs (inv : Inventory) : Prop :=
  ∀ r ∈ inv.InventoryContents, r < inv.Heap.length

/-- The item visible in slot `i` of the container. -/
def slotItem (inv : Inventory) (i : Nat) : Option ItemData :=
  match inv.InventoryContents[i]? with
  | some r => inv.Heap[r]?
  | none => none

/-- Slots `i` and `j` carry the given `ID` and their quantities sum to
`q0`. -/
def slotIsPair (inv : Inventory) (idv q0 : Int) (i j : Nat) : Bool :=
  match slotItem inv i, slotItem inv j with
  | some di, some dj =>
    di.ID == idv && dj.ID == idv && di.Quantity + dj.Quantity == q0
  | _, _ => false

/-- Two distinct slots of `InventoryContents` carry items with the given
`ID` whose quantities sum to `q0`. -/
def splitPairExists (inv : Inventory) (idv q0 : Int) : Bool :=
  (List.range inv.InventoryContents.length).any (fun i =>
    (List.range inv.InventoryContents.length).any (fun j =>
      decide (i ≠ j) && slotIsPair inv idv q0 i j))

/-- The reference of the instance that `AddNewItem` inserts: the argument
itself in the absorb branch, the freshly allocated cell otherwise. -/
def AddNewItemRef (inv : Inventory) (d : ItemData) (r : Nat) : Nat :=
  if d.bIsCopy || d.bIsPickup then r else inv.Heap.length

/-! ### Concrete states used by witnesses and counterexamples -/

/-- A one-slot container state used as the failing input of C3. -/
def C3inv : Inventory :=
  ⟨[⟨1, 1, 1, 10, true, "Rock", false, false, true⟩], [0], 1, 10, 100, true, 0⟩

/-- The scenario container of C2: `WeightCapacity = 50`, 10 free slots,
empty contents, owner present. -/
def C2inv : Inventory :=
  ⟨[⟨1, 6, 10, 10, true, "Coin", false, true, false⟩], [], 0, 10, 50, true, 0⟩

/-- A one-slot container state used to witness C10. -/
def C10inv : Inventory :=
  ⟨[⟨7, 4, 1, 10, true, "Herb", false, false, true⟩], [0], 4, 10, 100, true, 0⟩

/-- Witness state for C7: one stackable item of quantity 4 in a 10-slot
container. -/
def C7winv : Inventory :=
  ⟨[⟨7, 4, 1, 10, true, "Herb", false, false, true⟩], [0], 4, 10, 100, true, 0⟩

/-- Second witness state for C7: a pickup stackable item about to be added
to an empty 10-slot container. -/
def C7addinv : Inventory :=
  ⟨[⟨1, 6, 10, 10, true, "Coin", false, true, false⟩], [], 0, 10, 50, true, 0⟩

/-- Witness state for C8. -/
def C8winv : Inventory :=
  ⟨[⟨2, 3, 1, 20, true, "Apple", false, false, false⟩], [], 0, 10, 100, true, 0⟩

/-- Counterexample state for C5: a full stack (quantity 5 = maxStack 5). -/
def C5cinv : Inventory :=
  ⟨[⟨4, 5, 1, 5, true, "Ore", false, false, true⟩], [0], 5, 10, 100, true, 0⟩

/-- Fallback item used only to read a list element in closed statements. -/
def DummyItem : ItemData := ⟨0, 0, 0, 0, false, "None", false, false, false⟩

/-- Witness state for C5. -/
def C5winv : Inventory :=
  ⟨[⟨4, 5, 1, 9, true, "Ore", false, false, true⟩], [0], 5, 10, 100, true, 0⟩

/-- Counterexample state for C6: a non-stackable pickup item whose weight
`1/1000000000` is strictly positive but below the `FMath::IsNearlyZero`
tolerance `SMALL_NUMBER = 1/100000000`; the container is empty with ample
weight and slot capacity. -/
def C6cinv : Inventory :=
  ⟨[⟨9, 1, 1/1000000000, 0, false, "Feather", false, true, false⟩],
    [], 0, 5, 100, true, 0⟩

/-- Witness state for C6: a non-stackable pickup item of weight 1, empty
container with free capacity. -/
def C6winv : Inventory :=
  ⟨[⟨5, 1, 1, 0, false, "Sword", false, true, false⟩], [], 0, 5, 100, true, 0⟩

/-- Counterexample state for C4: a contained stack whose `bIsCopy` flag is
still set (exactly the state `AddNewItem`'s fresh-copy branch produces,
since `CreateItemCopy` sets `isCopy = true` and that branch never resets
it). -/
def C4cinv : Inventory :=
  ⟨[⟨1, 6, 0, 10, true, "Gem", true, false, true⟩], [0], 0, 10, 100, true, 0⟩

/-- Witness state for C4: the same stack as `C4cinv` but with clear
provenance flags. -/
def C4winv : Inventory :=
  ⟨[⟨1, 6, 0, 10, true, "Gem", false, false, true⟩], [0], 0, 10, 100, true, 0⟩

/-- Counterexample state for C1: one contained stack of stack weight 1,
cached weight correct. -/
def C1cinv : Inventory :=
  ⟨[⟨3, 1, 1, 5, true, "Coal", false, false, true⟩], [0], 1, 10, 100, true, 0⟩

/-- Witness state for C1: one contained weightless stack, so every
hypothesis of each conjunct is checkable. -/
def C1winv : Inventory :=
  ⟨[⟨3, 2, 0, 5, true, "Coal", false, false, true⟩], [0], 0, 10, 100, true, 0⟩

/-- A small container state used to witness C9. -/
def C9winv : Inventory :=
  ⟨[⟨6, 1, 1, 4, true, "Twig", false, false, true⟩], [0], 1, 10, 100, true, 0⟩

/-! ### Helper lemmas about `entryWeight` and summed weights -/

theorem entryWeight_set_ne {Heap : List ItemData} {r c : Nat} {nd : ItemData}
    (h : r ≠ c) : entryWeight (Heap.set r nd) c = entryWeight Heap c := by
  simp [entryWeight, List.getElem?_set_ne h]

theorem entryWeight_set_self {Heap : List ItemData} {r : Nat} {nd : ItemData}
    (h : r < Heap.length) :
    entryWeight (Heap.set r nd) r = nd.GetItemStackWeight := by
  simp [entryWeight, List.getElem?_set_eq_of_lt nd h]

theorem entryWeight_append_left {Heap l2 : List ItemData} {c : Nat}
    (h : c < Heap.length) : entryWeight (Heap ++ l2) c = entryWeight Heap c := by
  simp [entryWeight, List.getElem?_append_left h]

theorem entryWeight_concat_self {Heap : List ItemData} {nd : ItemData} :
    entryWeight (Heap ++ [nd]) Heap.length = nd.GetItemStackWeight := by
  simp [entryWeight, List.getElem?_concat_length]

theorem entryWeight_of_lookup {Heap : List ItemData} {r : Nat} {d : ItemData}
    (h : Heap[r]? = some d) : entryWeight Heap r = d.GetItemStackWeight := by
  simp [entryWeight, h]

theorem sum_map_entryWeight_set_not_mem {Heap : List ItemData} {cs : List Nat}
    {r : Nat} {nd : ItemData} (h : r ∉ cs) :
    (cs.map (entryWeight (Heap.set r nd))).sum = (cs.map (entryWeight Heap)).sum := by
  induction cs with
  | nil => rfl
  | cons a t ih =>
    simp only [List.map_cons, List.sum_cons]
    have har : r ≠ a := fun he => h (he ▸ List.mem_cons_self a t)
    rw [entryWeight_set_ne har, ih (fun ht => h (List.mem_cons_of_mem a ht))]

theorem sum_map_entryWeight_set_mem {Heap : List ItemData} {cs : List Nat}
    {r : Nat} {nd : ItemData} (hd : cs.Nodup) (hm : r ∈ cs) (hl : r < Heap.length) :
    (cs.map (entryWeight (Heap.set r nd))).sum
      = (cs.map (entryWeight Heap)).sum - entryWeight Heap r + nd.GetItemStackWeight := by
  induction cs with
  | nil => cases hm
  | cons a t ih =>
    rcases List.mem_cons.mp hm with h1 | h2
    · subst h1
      have hnt : r ∉ t := (List.nodup_cons.mp hd).1
      simp only [List.map_cons, List.sum_cons]
      rw [entryWeight_set_self hl, sum_map_entryWeight_set_not_mem hnt]
      ring
    · have hne : r ≠ a := by
        rintro rfl
        exact (List.nodup_cons.mp hd).1 h2
      simp only [List.map_cons, List.sum_cons]
      rw [entryWeight_set_ne hne, ih (List.nodup_cons.mp hd).2 h2]
      ring

theorem sum_map_entryWeight_append {Heap : List ItemData} {cs : List Nat}
    {l2 : List ItemData} (h : ∀ c ∈ cs, c < Heap.length) :
    (cs.map (entryWeight (Heap ++ l2))).sum = (cs.map (entryWeight Heap)).sum := by
  induction cs with
  | nil => rfl
  | cons a t ih =>
    simp only [List.map_cons, List.sum_cons]
    rw [entryWeight_append_left (h a (List.mem_cons_self a t)),
        ih (fun c hc => h c (List.mem_cons_of_mem a hc))]

theorem sum_map_erase {cs : List Nat} {r : Nat} (f : Nat → Rat) (h : r ∈ cs) :
    ((cs.erase r).map f).sum = (cs.map f).sum - f r := by
  have hp := List.perm_cons_erase h
  have hs := (hp.map f).sum_eq
  simp only [List.map_cons, List.sum_cons] at hs
  rw [hs]
  ring

/-! ### Helper lemmas about `SetQuantity` -/

theorem SetQuantity_of_bounds {d : ItemData} {n : Int} (h0 : 0 ≤ n)
    (h1 : n ≤ d.quantityCap) : d.SetQuantity n = { d with Quantity := n } := by
  have hq : max 0 (min n d.quantityCap) = n := by omega
  simp [ItemData.SetQuantity, hq]

theorem SetQuantity_Quantity_le {d : ItemData} {n : Int} (h : 0 ≤ n) :
    (d.SetQuantity n).Quantity ≤ n ∧ 0 ≤ (d.SetQuantity n).Quantity := by
  simp only [ItemData.SetQuantity]
  omega

theorem SetQuantity_Quantity_of_bounds {d : ItemData} {n : Int} (h0 : 0 ≤ n)
    (h1 : n ≤ d.quantityCap) : (d.SetQuantity n).Quantity = n := by
  simp only [ItemData.SetQuantity]
  omega

/-! ### Evaluation equations for the operations -/

theorem RemoveAmountOfItem_eq {inv : Inventory} {r : Nat} {d : ItemData} (n : Int)
    (hd : inv.Heap[r]? = some d) :
    RemoveAmountOfItem inv r n = Except.ok
      ({ inv with
          Heap := inv.Heap.set r (d.SetQuantity (d.Quantity - min n d.Quantity)),
          InventoryTotalWeight := inv.InventoryTotalWeight -
            ((min n d.Quantity : Int) : Rat) * d.GetItemSingleWeight,
          Broadcasts := inv.Broadcasts + 1 }, min n d.Quantity) := by
  simp [RemoveAmountOfItem, hd]

theorem AddNewItem_eq_absorb {inv : Inventory} {r : Nat} {d : ItemData} (amt : Int)
    (hd : inv.Heap[r]? = some d) (hflag : (d.bIsCopy || d.bIsPickup) = true) :
    AddNewItem inv r amt = Except.ok
      { inv with
          Heap := inv.Heap.set r { d.ResetItemFlags.SetQuantity amt with Owned := true },
          InventoryContents := inv.InventoryContents ++ [r],
          InventoryTotalWeight := inv.InventoryTotalWeight +
            ({ d.ResetItemFlags.SetQuantity amt with Owned := true } : ItemData).GetItemStackWeight,
          Broadcasts := inv.Broadcasts + 1 } := by
  simp [AddNewItem, hd, hflag]

theorem AddNewItem_eq_fresh {inv : Inventory} {r : Nat} {d : ItemData} (amt : Int)
    (hd : inv.Heap[r]? = some d) (hflag : (d.bIsCopy || d.bIsPickup) = false) :
    AddNewItem inv r amt = Except.ok
      { inv with
          Heap := inv.Heap ++ [{ d.CreateItemCopy.SetQuantity amt with Owned := true }],
          InventoryContents := inv.InventoryContents ++ [inv.Heap.length],
          InventoryTotalWeight := inv.InventoryTotalWeight +
            ({ d.CreateItemCopy.SetQuantity amt with Owned := true } : ItemData).GetItemStackWeight,
          Broadcasts := inv.Broadcasts + 1 } := by
  simp [AddNewItem, hd, hflag]

theorem SplitExistingStack_eq_of_le {inv inv2 : Inventory} {r : Nat} {k a : Int}
    (hcap : ¬((inv.InventoryContents.length : Int) + 1 > inv.InventorySlotsCapacity))
    (h1 : RemoveAmountOfItem inv r k = Except.ok (inv2, a)) :
    SplitExistingStack inv r k = AddNewItem inv2 r k := by
  simp only [SplitExistingStack]
  rw [if_pos hcap, h1]
  rfl

theorem SplitExistingStack_eq_of_gt {inv : Inventory} {r : Nat} {k : Int}
    (hcap : (inv.InventoryContents.length : Int) + 1 > inv.InventorySlotsCapacity) :
    SplitExistingStack inv r k = Except.ok inv := by
  simp only [SplitExistingStack]
  rw [if_neg (not_not_intro hcap)]

/-! ### C9 -/

/-- **C9.** For every container state, `FindMatchingItem` and
`FindNextItemByID` called with a null item reference return `None` without
dereferencing the argument (no `Except.error`).  Both are `const` queries
of the source, embedded as pure functions of the state, so neither
modifies `InventoryContents` or `InventoryTotalWeight`. -/
theorem C9_null_guarded_queries (inv : Inventory) :
    FindMatchingItem inv none = Except.ok none ∧
    FindNextItemByID inv none = Except.ok none :=
  ⟨rfl, rfl⟩

/-- Witness for C9 at a concrete container state. -/
theorem C9_null_guarded_queries_witness :
    FindMatchingItem C9winv none = Except.ok none ∧
    FindNextItemByID C9winv none = Except.ok none :=
  C9_null_guarded_queries C9winv

/-! ### C3 -/

/-- **C3.** Failing input for the claim that `FindNextPartialStack` guards
the null case: the source (lines 58–66) has no null check on `InItem`, so
with a nonempty `InventoryContents` the search predicate dereferences the
null argument (`Except.error ()` in the embedding), while the two guarded
finders return `Except.ok none` on the same state. -/
theorem C3_null_not_guarded :
    FindNextPartialStack C3inv none = Except.error () ∧
    FindMatchingItem C3inv none = Except.ok none ∧
    FindNextItemByID C3inv none = Except.ok none :=
  ⟨rfl, rfl, rfl⟩

/-! ### C2 -/

/-- **C2.** At the claim's own scenario (stackable item `ID = 1`, weight
10 per unit, `maxStack = 10`, quantity 6, `WeightCapacity = 50`),
`HandleStackableItems` is a stub returning 0 in the source (lines
141–144), so `HandleAddItem` returns `AddedNone` — not the claimed
`AddedSome(5)` — and adds no units. -/
theorem C2_stackable_stub :
    HandleStackableItems C2inv 0 6 = (C2inv, 0) ∧
    HandleAddItem C2inv 0 =
      Except.ok (C2inv, FItemAddResult.AddedNone (MsgNoSlotsInvalid ("Coin"))) ∧
    (FItemAddResult.AddedNone (MsgNoSlotsInvalid ("Coin"))).OperationResult ≠
      AddOutcome.AddedSome ∧
    (FItemAddResult.AddedNone (MsgNoSlotsInvalid ("Coin"))).ActualAmountAdded ≠ 5 :=
  ⟨rfl, rfl, by decide, by decide⟩

/-! ### C10 -/

/-- **C10.** Whenever `SplitExistingStack` actually performs a split
(`|Contents| + 1 <= SlotsCapacity`, and the split item reference is
valid), the change notification is broadcast exactly twice — once by the
inner `RemoveAmountOfItem` and once by the inner `AddNewItem` — never
once. -/
theorem C10_split_broadcasts_twice (inv : Inventory) (r : Nat) (k : Int)
    (d : ItemData) (hd : inv.Heap[r]? = some d)
    (hcap : ¬((inv.InventoryContents.length : Int) + 1 > inv.InventorySlotsCapacity)) :
    ∃ inv1, SplitExistingStack inv r k = Except.ok inv1 ∧
      inv1.Broadcasts = inv.Broadcasts + 2 := by
  have hr : r < inv.Heap.length := (List.getElem?_eq_some.mp hd).1
  have h1 := RemoveAmountOfItem_eq k hd
  have hsplit := SplitExistingStack_eq_of_le hcap h1
  set d1 := d.SetQuantity (d.Quantity - min k d.Quantity) with hd1
  have h2 : (inv.Heap.set r d1)[r]? = some d1 := List.getElem?_set_eq_of_lt d1 hr
  by_cases hflag : (d1.bIsCopy || d1.bIsPickup) = true
  · refine ⟨_, hsplit.trans (AddNewItem_eq_absorb k h2 hflag), rfl⟩
  · refine ⟨_, hsplit.trans (AddNewItem_eq_fresh k h2 (by
      revert hflag
      cases d1.bIsCopy || d1.bIsPickup <;> simp)), rfl⟩

/-- Witness for C10 at a concrete one-item container. -/
theorem C10_split_broadcasts_twice_witness :
    ∃ inv1, SplitExistingStack C10inv 0 1 = Except.ok inv1 ∧
      inv1.Broadcasts = C10inv.Broadcasts + 2 :=
  C10_split_broadcasts_twice C10inv 0 1 _ rfl (by decide)

theorem bindOkEq {α β : Type} (a : α) (f : α → Except Unit β) :
    (Except.ok a >>= f) = f a := rfl

theorem AddNewItem_shape {inv inv1 : Inventory} {r : Nat} {amt : Int}
    (h : AddNewItem inv r amt = Except.ok inv1) :
    inv1.InventoryContents.length = inv.InventoryContents.length + 1 ∧
    inv1.InventorySlotsCapacity = inv.InventorySlotsCapacity := by
  cases hl : inv.Heap[r]? with
  | none => simp [AddNewItem, hl] at h
  | some d =>
    by_cases hf : (d.bIsCopy || d.bIsPickup) = true
    · rw [AddNewItem_eq_absorb amt hl hf] at h
      injection h with h
      subst h
      simp
    · rw [AddNewItem_eq_fresh amt hl (by revert hf; cases d.bIsCopy || d.bIsPickup <;> simp)] at h
      injection h with h
      subst h
      simp

theorem HandleNonStackableItems_shape {inv inv1 : Inventory} {r : Nat}
    {res : FItemAddResult}
    (h : HandleNonStackableItems inv r = Except.ok (inv1, res)) :
    inv1 = inv ∨
    (¬((inv.InventoryContents.length : Int) + 1 > inv.InventorySlotsCapacity) ∧
      AddNewItem inv r 1 = Except.ok inv1) := by
  unfold HandleNonStackableItems at h
  cases hl : inv.Heap[r]? with
  | none => rw [hl] at h; exact absurd h (by simp)
  | some d =>
    rw [hl] at h
    dsimp only at h
    split at h
    · injection h with h
      exact Or.inl (congrArg Prod.fst h).symm
    · split at h
      · injection h with h
        exact Or.inl (congrArg Prod.fst h).symm
      · split at h
        · injection h with h
          exact Or.inl (congrArg Prod.fst h).symm
        · rename_i hw hs hc
          cases ha : AddNewItem inv r 1 with
          | error e =>
            rw [ha, show (Except.error e >>= fun inv2 =>
                Except.ok (inv2, FItemAddResult.AddedAll 1
                  (MsgAddedNonStackable d.ItemName))) = Except.error e from rfl] at h
            exact absurd h (by simp)
          | ok inv2 =>
            rw [ha, bindOkEq] at h
            injection h with h
            have h1 : inv2 = inv1 := congrArg Prod.fst h
            exact Or.inr ⟨hc, congrArg Except.ok h1⟩

theorem HandleAddItem_shape {inv inv1 : Inventory} {r : Nat} {res : FItemAddResult}
    (h : HandleAddItem inv r = Except.ok (inv1, res)) :
    inv1 = inv ∨ HandleNonStackableItems inv r = Except.ok (inv1, res) := by
  unfold HandleAddItem at h
  by_cases ho : inv.HasOwner
  · rw [if_pos ho] at h
    cases hl : inv.Heap[r]? with
    | none => rw [hl] at h; exact absurd h (by simp)
    | some d =>
      rw [hl] at h
      dsimp only at h
      by_cases hs : (!d.bIsStackable) = true
      · rw [if_pos hs] at h
        exact Or.inr h
      · rw [if_neg hs] at h
        split at h
        · injection h with h
          exact Or.inl (congrArg Prod.fst h).symm
        · split at h
          · injection h with h
            exact Or.inl (congrArg Prod.fst h).symm
          · injection h with h
            exact Or.inl (congrArg Prod.fst h).symm
  · rw [if_neg ho] at h
    injection h with h
    exact Or.inl (congrArg Prod.fst h).symm

/-! ### C7 -/

/-- **C7.** After each operation of the public operation set
(`HandleAddItem`, `RemoveAmountOfItem`, `RemoveSingleInstanceOfItem`,
`SplitExistingStack`), `|InventoryContents| ≤ InventorySlotsCapacity`
holds, given that it held before the operation. -/
theorem C7_slots_capacity :
    (∀ inv r inv1 res, (inv.InventoryContents.length : Int) ≤ inv.InventorySlotsCapacity →
      HandleAddItem inv r = Except.ok (inv1, res) →
      (inv1.InventoryContents.length : Int) ≤ inv1.InventorySlotsCapacity) ∧
    (∀ inv r n inv1 a, (inv.InventoryContents.length : Int) ≤ inv.InventorySlotsCapacity →
      RemoveAmountOfItem inv r n = Except.ok (inv1, a) →
      (inv1.InventoryContents.length : Int) ≤ inv1.InventorySlotsCapacity) ∧
    (∀ inv r, (inv.InventoryContents.length : Int) ≤ inv.InventorySlotsCapacity →
      ((RemoveSingleInstanceOfItem inv r).InventoryContents.length : Int) ≤
        (RemoveSingleInstanceOfItem inv r).InventorySlotsCapacity) ∧
    (∀ inv r k inv1, (inv.InventoryContents.length : Int) ≤ inv.InventorySlotsCapacity →
      SplitExistingStack inv r k = Except.ok inv1 →
      (inv1.InventoryContents.length : Int) ≤ inv1.InventorySlotsCapacity) := by
  refine ⟨?_, ?_, ?_, ?_⟩
  · intro inv r inv1 res hpre h
    rcases HandleAddItem_shape h with h1 | h1
    · rw [h1]; exact hpre
    · rcases HandleNonStackableItems_shape h1 with h2 | ⟨hcap, h2⟩
      · rw [h2]; exact hpre
      · have := AddNewItem_shape h2
        omega
  · intro inv r n inv1 a hpre h
    cases hl : inv.Heap[r]? with
    | none => simp [RemoveAmountOfItem, hl] at h
    | some d =>
      rw [RemoveAmountOfItem_eq n hl] at h
      injection h with h
      have h1 : _ = inv1 := congrArg Prod.fst h
      rw [← h1]
      exact hpre
  · intro inv r hpre
    simp only [RemoveSingleInstanceOfItem]
    have := List.length_erase_le r inv.InventoryContents
    have h2 : (inv.InventoryContents.erase r).length ≤ inv.InventoryContents.length := this
    omega
  · intro inv r k inv1 hpre h
    by_cases hcap : (inv.InventoryContents.length : Int) + 1 > inv.InventorySlotsCapacity
    · rw [SplitExistingStack_eq_of_gt hcap] at h
      injection h with h
      rw [← h]; exact hpre
    · cases hl : inv.Heap[r]? with
      | none =>
        have hrem : RemoveAmountOfItem inv r k = Except.error () := by
          simp [RemoveAmountOfItem, hl]
        have hse : SplitExistingStack inv r k = Except.error () := by
          simp only [SplitExistingStack]
          rw [if_pos hcap, hrem]
          rfl
        rw [hse] at h
        exact absurd h (by simp)
      | some d =>
        rw [SplitExistingStack_eq_of_le hcap (RemoveAmountOfItem_eq k hl)] at h
        have := AddNewItem_shape h
        simp only [List.length_append] at this
        omega

/-- Witness for C7: all four operations applied at concrete states. -/
theorem C7_slots_capacity_witness :
    (((RemoveSingleInstanceOfItem C7winv 0).InventoryContents.length : Int) ≤
      (RemoveSingleInstanceOfItem C7winv 0).InventorySlotsCapacity) ∧
    (∃ inv1 a, RemoveAmountOfItem C7winv 0 1 = Except.ok (inv1, a) ∧
      (inv1.InventoryContents.length : Int) ≤ inv1.InventorySlotsCapacity) ∧
    (∃ inv1, SplitExistingStack C7winv 0 1 = Except.ok inv1 ∧
      (inv1.InventoryContents.length : Int) ≤ inv1.InventorySlotsCapacity) ∧
    (∃ inv1 res, HandleAddItem C7addinv 0 = Except.ok (inv1, res) ∧
      (inv1.InventoryContents.length : Int) ≤ inv1.InventorySlotsCapacity) := by
  refine ⟨C7_slots_capacity.2.2.1 C7winv 0 (by decide), ?_, ?_, ?_⟩
  · have h := RemoveAmountOfItem_eq 1 (show C7winv.Heap[0]? = some _ from rfl)
    exact ⟨_, _, h, C7_slots_capacity.2.1 C7winv 0 1 _ _ (by decide) h⟩
  · have h2 := SplitExistingStack_eq_of_le (by decide)
      (RemoveAmountOfItem_eq 1 (show C7winv.Heap[0]? = some _ from rfl))
    have h4 := h2.trans (AddNewItem_eq_fresh 1 rfl rfl)
    exact ⟨_, h4, C7_slots_capacity.2.2.2 C7winv 0 1 _ (by decide) h4⟩
  · have h : HandleAddItem C7addinv 0 = Except.ok
        (C7addinv, FItemAddResult.AddedNone (MsgNoSlotsInvalid ("Coin"))) := rfl
    exact ⟨_, _, h, C7_slots_capacity.1 C7addinv 0 _ _ (by decide) h⟩

/-! ### C8 -/

/-- **C8.** For every container state and every valid item reference,
`AddNewItem(item, 5)` followed by `RemoveAmountOfItem` on the resulting
contained instance with amount 5 returns `InventoryTotalWeight` to its
value before the add (exactly, in the rational model; the source computes
the same sums in `float`). -/
theorem C8_roundtrip (inv : Inventory) (r : Nat) (d : ItemData)
    (hd : inv.Heap[r]? = some d) :
    ∃ inv1 inv2 a, AddNewItem inv r 5 = Except.ok inv1 ∧
      RemoveAmountOfItem inv1 (AddNewItemRef inv d r) 5 = Except.ok (inv2, a) ∧
      inv2.InventoryTotalWeight = inv.InventoryTotalWeight := by
  have hr : r < inv.Heap.length := (List.getElem?_eq_some.mp hd).1
  by_cases hf : (d.bIsCopy || d.bIsPickup) = true
  · set nd : ItemData := { d.ResetItemFlags.SetQuantity 5 with Owned := true } with hnd
    set inv1 : Inventory :=
      { inv with
          Heap := inv.Heap.set r nd,
          InventoryContents := inv.InventoryContents ++ [r],
          InventoryTotalWeight := inv.InventoryTotalWeight + nd.GetItemStackWeight,
          Broadcasts := inv.Broadcasts + 1 } with hinv1
    have h1 : AddNewItem inv r 5 = Except.ok inv1 := AddNewItem_eq_absorb 5 hd hf
    have hrefr : AddNewItemRef inv d r = r := by simp [AddNewItemRef, hf]
    have hlook : inv1.Heap[r]? = some nd := List.getElem?_set_eq_of_lt nd hr
    have h2 : RemoveAmountOfItem inv1 (AddNewItemRef inv d r) 5 = Except.ok
        ({ inv1 with
            Heap := inv1.Heap.set r (nd.SetQuantity (nd.Quantity - min 5 nd.Quantity)),
            InventoryTotalWeight := inv1.InventoryTotalWeight -
              ((min 5 nd.Quantity : Int) : Rat) * nd.GetItemSingleWeight,
            Broadcasts := inv1.Broadcasts + 1 }, min 5 nd.Quantity) := by
      rw [hrefr]
      exact RemoveAmountOfItem_eq 5 hlook
    refine ⟨inv1, _, _, h1, h2, ?_⟩
    have hq : min 5 nd.Quantity = nd.Quantity := by
      simp only [hnd, ItemData.SetQuantity]
      omega
    show inv1.InventoryTotalWeight -
        ((min 5 nd.Quantity : Int) : Rat) * nd.GetItemSingleWeight = inv.InventoryTotalWeight
    rw [hq, hinv1]
    simp only [ItemData.GetItemStackWeight, ItemData.GetItemSingleWeight]
    ring
  · have hf2 : (d.bIsCopy || d.bIsPickup) = false := by
      revert hf
      cases d.bIsCopy || d.bIsPickup <;> simp
    set nd : ItemData := { d.CreateItemCopy.SetQuantity 5 with Owned := true } with hnd
    set inv1 : Inventory :=
      { inv with
          Heap := inv.Heap ++ [nd],
          InventoryContents := inv.InventoryContents ++ [inv.Heap.length],
          InventoryTotalWeight := inv.InventoryTotalWeight + nd.GetItemStackWeight,
          Broadcasts := inv.Broadcasts + 1 } with hinv1
    have h1 : AddNewItem inv r 5 = Except.ok inv1 := AddNewItem_eq_fresh 5 hd hf2
    have hrefr : AddNewItemRef inv d r = inv.Heap.length := by simp [AddNewItemRef, hf2]
    have hlook : inv1.Heap[inv.Heap.length]? = some nd := List.getElem?_concat_length _ _
    have h2 : RemoveAmountOfItem inv1 (AddNewItemRef inv d r) 5 = Except.ok
        ({ inv1 with
            Heap := inv1.Heap.set (inv.Heap.length)
              (nd.SetQuantity (nd.Quantity - min 5 nd.Quantity)),
            InventoryTotalWeight := inv1.InventoryTotalWeight -
              ((min 5 nd.Quantity : Int) : Rat) * nd.GetItemSingleWeight,
            Broadcasts := inv1.Broadcasts + 1 }, min 5 nd.Quantity) := by
      rw [hrefr]
      exact RemoveAmountOfItem_eq 5 hlook
    refine ⟨inv1, _, _, h1, h2, ?_⟩
    have hq : min 5 nd.Quantity = nd.Quantity := by
      simp only [hnd, ItemData.SetQuantity]
      omega
    show inv1.InventoryTotalWeight -
        ((min 5 nd.Quantity : Int) : Rat) * nd.GetItemSingleWeight = inv.InventoryTotalWeight
    rw [hq, hinv1]
    simp only [ItemData.GetItemStackWeight, ItemData.GetItemSingleWeight]
    ring

/-- Witness for C8 at a concrete container. -/
theorem C8_roundtrip_witness :
    ∃ inv1 inv2 a, AddNewItem C8winv 0 5 = Except.ok inv1 ∧
      RemoveAmountOfItem inv1
          (AddNewItemRef C8winv ⟨2, 3, 1, 20, true, "Apple", false, false, false⟩ 0) 5
        = Except.ok (inv2, a) ∧
      inv2.InventoryTotalWeight = C8winv.InventoryTotalWeight :=
  C8_roundtrip C8winv 0 ⟨2, 3, 1, 20, true, "Apple", false, false, false⟩ rfl

/-! ### C5 -/

/-- **C5 (counterexample).** At the contained full stack of `C5cinv`
(quantity 5, maxStack 5) and requested amount `n = -1`, the source
computes `actual = min(-1, 5) = -1` and calls `SetQuantity(5 - (-1)) =
SetQuantity(6)`, which clamps to the stack cap: the resulting quantity is
5, not the `5 - (-1) = 6` that "decrements the item's quantity by
`actual`" requires.  So the claim is false for negative requested
amounts. -/
theorem C5_quantity_clamp_counterexample :
    (RemoveAmountOfItem C5cinv 0 (-1)).map
        (fun p => ((p.1.Heap.getD 0 DummyItem).Quantity, p.2)) =
      Except.ok (5, -1) ∧
    (5 : Int) ≠ 5 - min (-1 : Int) 5 :=
  ⟨rfl, by decide⟩

/-- **C5 (amended).** For every contained item and every requested amount
`n ≥ 0` (with the item's quantity within its stack bound),
`RemoveAmountOfItem(item, n)` removes exactly `actual = min(n, quantity)`
units: it decrements the quantity by `actual`, decreases
`InventoryTotalWeight` by `actual × single weight`, returns `actual`, and
never removes the item's entry from `InventoryContents` even when the
quantity reaches 0. -/
theorem C5_remove_amount_amended (inv : Inventory) (r : Nat) (n : Int)
    (d : ItemData) (hd : inv.Heap[r]? = some d)
    (hm : r ∈ inv.InventoryContents) (hn : 0 ≤ n)
    (hq0 : 0 ≤ d.Quantity) (hqc : d.Quantity ≤ d.quantityCap) :
    ∃ inv1, RemoveAmountOfItem inv r n = Except.ok (inv1, min n d.Quantity) ∧
      inv1.Heap[r]? = some { d with Quantity := d.Quantity - min n d.Quantity } ∧
      inv1.InventoryTotalWeight = inv.InventoryTotalWeight -
        ((min n d.Quantity : Int) : Rat) * d.GetItemSingleWeight ∧
      inv1.InventoryContents = inv.InventoryContents ∧
      r ∈ inv1.InventoryContents := by
  have hr : r < inv.Heap.length := (List.getElem?_eq_some.mp hd).1
  have hset : d.SetQuantity (d.Quantity - min n d.Quantity)
      = { d with Quantity := d.Quantity - min n d.Quantity } :=
    SetQuantity_of_bounds (by omega) (by omega)
  refine ⟨_, RemoveAmountOfItem_eq n hd, ?_, rfl, rfl, hm⟩
  rw [hset]
  exact List.getElem?_set_eq_of_lt _ hr

/-- Witness for C5 (amended) at a concrete container, removing 2 of 5. -/
theorem C5_remove_amount_amended_witness :
    ∃ inv1, RemoveAmountOfItem C5winv 0 2 = Except.ok (inv1, min 2 5) ∧
      inv1.Heap[0]? = some { (⟨4, 5, 1, 9, true, "Ore", false, false, true⟩ : ItemData)
        with Quantity := 5 - min 2 5 } ∧
      inv1.InventoryTotalWeight = C5winv.InventoryTotalWeight -
        ((min 2 5 : Int) : Rat) *
          (⟨4, 5, 1, 9, true, "Ore", false, false, true⟩ : ItemData).GetItemSingleWeight ∧
      inv1.InventoryContents = C5winv.InventoryContents ∧
      0 ∈ inv1.InventoryContents :=
  C5_remove_amount_amended C5winv 0 2 ⟨4, 5, 1, 9, true, "Ore", false, false, true⟩
    rfl (by decide) (by decide) (by decide) (by decide)

/-! ### C6 -/

theorem nearlyZeroCond_iff {w : Rat} :
    (IsNearlyZero w = true ∨ w < 0) ↔ w ≤ SMALL_NUMBER := by
  rw [IsNearlyZero, decide_eq_true_eq]
  constructor
  · rintro (h | h)
    · exact le_trans (le_abs_self w) h
    · have hs : (0 : Rat) ≤ SMALL_NUMBER := by
        rw [SMALL_NUMBER]
        norm_num
      exact le_trans h.le hs
  · intro h
    by_cases h0 : 0 ≤ w
    · exact Or.inl (by rwa [abs_of_nonneg h0])
    · exact Or.inr (lt_of_not_ge h0)

theorem HandleNonStackableItems_no_weight {inv : Inventory} {r : Nat} {d : ItemData}
    (hd : inv.Heap[r]? = some d)
    (hw : IsNearlyZero d.GetItemSingleWeight = true ∨ d.GetItemSingleWeight < 0) :
    HandleNonStackableItems inv r =
      Except.ok (inv, FItemAddResult.AddedNone (MsgNoWeight d.ItemName)) := by
  unfold HandleNonStackableItems
  rw [hd]
  dsimp only
  rw [if_pos hw]

theorem HandleNonStackableItems_overflow {inv : Inventory} {r : Nat} {d : ItemData}
    (hd : inv.Heap[r]? = some d)
    (hw : ¬(IsNearlyZero d.GetItemSingleWeight = true ∨ d.GetItemSingleWeight < 0))
    (h2 : inv.InventoryTotalWeight + d.GetItemSingleWeight > GetWeightCapacity inv) :
    HandleNonStackableItems inv r =
      Except.ok (inv, FItemAddResult.AddedNone (MsgOverflowWeight d.ItemName)) := by
  unfold HandleNonStackableItems
  rw [hd]
  dsimp only
  rw [if_neg hw, if_pos h2]

theorem HandleNonStackableItems_no_slot {inv : Inventory} {r : Nat} {d : ItemData}
    (hd : inv.Heap[r]? = some d)
    (hw : ¬(IsNearlyZero d.GetItemSingleWeight = true ∨ d.GetItemSingleWeight < 0))
    (h2 : ¬(inv.InventoryTotalWeight + d.GetItemSingleWeight > GetWeightCapacity inv))
    (h3 : (inv.InventoryContents.length : Int) + 1 > inv.InventorySlotsCapacity) :
    HandleNonStackableItems inv r =
      Except.ok (inv, FItemAddResult.AddedNone (MsgNoFreeSlot d.ItemName)) := by
  unfold HandleNonStackableItems
  rw [hd]
  dsimp only
  rw [if_neg hw, if_neg h2, if_pos h3]

theorem HandleNonStackableItems_accept {inv inv1 : Inventory} {r : Nat} {d : ItemData}
    (hd : inv.Heap[r]? = some d)
    (hw : ¬(IsNearlyZero d.GetItemSingleWeight = true ∨ d.GetItemSingleWeight < 0))
    (h2 : ¬(inv.InventoryTotalWeight + d.GetItemSingleWeight > GetWeightCapacity inv))
    (h3 : ¬((inv.InventoryContents.length : Int) + 1 > inv.InventorySlotsCapacity))
    (ha : AddNewItem inv r 1 = Except.ok inv1) :
    HandleNonStackableItems inv r =
      Except.ok (inv1, FItemAddResult.AddedAll 1 (MsgAddedNonStackable d.ItemName)) := by
  unfold HandleNonStackableItems
  rw [hd]
  dsimp only
  rw [if_neg hw, if_neg h2, if_neg h3, ha, bindOkEq]

theorem AddNewItem_ok {inv : Inventory} {r : Nat} {d : ItemData} (amt : Int)
    (hd : inv.Heap[r]? = some d) :
    ∃ inv1, AddNewItem inv r amt = Except.ok inv1 := by
  by_cases hf : (d.bIsCopy || d.bIsPickup) = true
  · exact ⟨_, AddNewItem_eq_absorb amt hd hf⟩
  · exact ⟨_, AddNewItem_eq_fresh amt hd (by
      revert hf
      cases d.bIsCopy || d.bIsPickup <;> simp)⟩

/-- **C6 (counterexample).** On `C6cinv` the item's single weight is
strictly positive, adding it would not exceed `WeightCapacity`, and a free
slot exists — so by the claim (`AddedNone` iff non-positive weight, weight
overflow, or full slots) the add should succeed; but the source's
`FMath::IsNearlyZero` tolerance makes `HandleNonStackableItems` return
`AddedNone`. -/
theorem C6_nearly_zero_counterexample :
    (HandleNonStackableItems C6cinv 0).map (fun p => p.2.OperationResult) =
      Except.ok AddOutcome.AddedNone ∧
    (0 : Rat) < 1/1000000000 ∧
    C6cinv.InventoryTotalWeight + (1/1000000000 : Rat) ≤ GetWeightCapacity C6cinv ∧
    (C6cinv.InventoryContents.length : Int) + 1 ≤ C6cinv.InventorySlotsCapacity := by
  refine ⟨?_, by norm_num, ?_, by decide⟩
  · have hw : IsNearlyZero (ItemData.GetItemSingleWeight
        ⟨9, 1, 1/1000000000, 0, false, "Feather", false, true, false⟩) = true := by
      rw [IsNearlyZero, decide_eq_true_eq, SMALL_NUMBER]
      simp only [ItemData.GetItemSingleWeight]
      rw [abs_of_pos (by norm_num)]
      norm_num
    rw [HandleNonStackableItems_no_weight rfl (Or.inl hw)]
    rfl
  · show (0 : Rat) + 1/1000000000 ≤ (100 : Rat)
    norm_num

/-- **C6 (amended).** For every non-stackable item,
`HandleNonStackableItems` returns `AddedNone` iff the single weight is at
most the `IsNearlyZero` tolerance `SMALL_NUMBER` (in particular iff it is
non-positive or within `1/100000000` of zero), or the weight would
overflow `WeightCapacity`, or `InventoryContents` is at (or beyond)
`InventorySlotsCapacity`; on the near-zero-weight rejection the message is
the "Item Has No Weight!" message and the state is unchanged; otherwise it
calls `AddNewItem(item, 1)` and returns `AddedAll(1)`. -/
theorem C6_nonstackable_amended (inv : Inventory) (r : Nat) (d : ItemData)
    (hd : inv.Heap[r]? = some d) (hns : d.bIsStackable = false) :
    ∃ inv1 res, HandleNonStackableItems inv r = Except.ok (inv1, res) ∧
      (res.OperationResult = AddOutcome.AddedNone ↔
        (d.GetItemSingleWeight ≤ SMALL_NUMBER ∨
         inv.InventoryTotalWeight + d.GetItemSingleWeight > GetWeightCapacity inv ∨
         (inv.InventoryContents.length : Int) + 1 > inv.InventorySlotsCapacity)) ∧
      (d.GetItemSingleWeight ≤ SMALL_NUMBER →
        inv1 = inv ∧ res = FItemAddResult.AddedNone (MsgNoWeight d.ItemName)) ∧
      (¬(d.GetItemSingleWeight ≤ SMALL_NUMBER ∨
         inv.InventoryTotalWeight + d.GetItemSingleWeight > GetWeightCapacity inv ∨
         (inv.InventoryContents.length : Int) + 1 > inv.InventorySlotsCapacity) →
        AddNewItem inv r 1 = Except.ok inv1 ∧
        res = FItemAddResult.AddedAll 1 (MsgAddedNonStackable d.ItemName)) := by
  by_cases h1 : d.GetItemSingleWeight ≤ SMALL_NUMBER
  · exact ⟨inv, _, HandleNonStackableItems_no_weight hd (nearlyZeroCond_iff.mpr h1),
      iff_of_true rfl (Or.inl h1), fun _ => ⟨rfl, rfl⟩,
      fun hcon => absurd (Or.inl h1) hcon⟩
  · have hw : ¬(IsNearlyZero d.GetItemSingleWeight = true ∨ d.GetItemSingleWeight < 0) :=
      fun hc => h1 (nearlyZeroCond_iff.mp hc)
    by_cases h2 : inv.InventoryTotalWeight + d.GetItemSingleWeight > GetWeightCapacity inv
    · exact ⟨inv, _, HandleNonStackableItems_overflow hd hw h2,
        iff_of_true rfl (Or.inr (Or.inl h2)), fun hc => absurd hc h1,
        fun hcon => absurd (Or.inr (Or.inl h2)) hcon⟩
    · by_cases h3 : (inv.InventoryContents.length : Int) + 1 > inv.InventorySlotsCapacity
      · exact ⟨inv, _, HandleNonStackableItems_no_slot hd hw h2 h3,
          iff_of_true rfl (Or.inr (Or.inr h3)), fun hc => absurd hc h1,
          fun hcon => absurd (Or.inr (Or.inr h3)) hcon⟩
      · obtain ⟨inv1, ha⟩ := AddNewItem_ok 1 hd
        exact ⟨inv1, _, HandleNonStackableItems_accept hd hw h2 h3 ha,
          iff_of_false (by simp [FItemAddResult.AddedAll])
            (fun hc => hc.elim h1 (fun hc2 => hc2.elim h2 h3)),
          fun hc => absurd hc h1, fun _ => ⟨ha, rfl⟩⟩

/-- Witness for C6 (amended) at the accepting state `C6winv`. -/
theorem C6_nonstackable_amended_witness :
    ∃ inv1 res, HandleNonStackableItems C6winv 0 = Except.ok (inv1, res) ∧
      (res.OperationResult = AddOutcome.AddedNone ↔
        ((⟨5, 1, 1, 0, false, "Sword", false, true, false⟩ : ItemData).GetItemSingleWeight
            ≤ SMALL_NUMBER ∨
         C6winv.InventoryTotalWeight +
            (⟨5, 1, 1, 0, false, "Sword", false, true, false⟩ : ItemData).GetItemSingleWeight
            > GetWeightCapacity C6winv ∨
         (C6winv.InventoryContents.length : Int) + 1 > C6winv.InventorySlotsCapacity)) ∧
      ((⟨5, 1, 1, 0, false, "Sword", false, true, false⟩ : ItemData).GetItemSingleWeight
          ≤ SMALL_NUMBER →
        inv1 = C6winv ∧ res = FItemAddResult.AddedNone (MsgNoWeight ("Sword"))) ∧
      (¬((⟨5, 1, 1, 0, false, "Sword", false, true, false⟩ : ItemData).GetItemSingleWeight
            ≤ SMALL_NUMBER ∨
         C6winv.InventoryTotalWeight +
            (⟨5, 1, 1, 0, false, "Sword", false, true, false⟩ : ItemData).GetItemSingleWeight
            > GetWeightCapacity C6winv ∨
         (C6winv.InventoryContents.length : Int) + 1 > C6winv.InventorySlotsCapacity) →
        AddNewItem C6winv 0 1 = Except.ok inv1 ∧
        res = FItemAddResult.AddedAll 1 (MsgAddedNonStackable ("Sword"))) :=
  C6_nonstackable_amended C6winv 0 ⟨5, 1, 1, 0, false, "Sword", false, true, false⟩ rfl rfl

/-! ### C4 -/

/-- **C4 (counterexample).** On `C4cinv` the item is contained with
quantity `6 ≥ 2` and a free slot exists, yet after
`SplitExistingStack(item, 2)` no two distinct entries with the item's ID
have quantities summing to 6: the inner `AddNewItem` takes the
`bIsCopy || bIsPickup` absorb branch, re-inserts the same instance
(quantity overwritten to 2) and the container ends with the one object in
two slots, quantities 2 and 2. -/
theorem C4_split_copy_counterexample :
    0 ∈ C4cinv.InventoryContents ∧
    (2 : Int) ≤ 6 ∧
    (C4cinv.InventoryContents.length : Int) + 1 ≤ C4cinv.InventorySlotsCapacity ∧
    (SplitExistingStack C4cinv 0 2).map (fun i => splitPairExists i 1 6) =
      Except.ok false :=
  ⟨by decide, by decide, by decide, rfl⟩

theorem splitPairExists_intro (i j : Nat) (di dj : ItemData) {inv : Inventory}
    {idv q0 : Int}
    (hne : i ≠ j) (hi : i < inv.InventoryContents.length)
    (hj : j < inv.InventoryContents.length)
    (hsi : slotItem inv i = some di) (hsj : slotItem inv j = some dj)
    (hdi : di.ID = idv) (hdj : dj.ID = idv)
    (hq : di.Quantity + dj.Quantity = q0) :
    splitPairExists inv idv q0 = true := by
  rw [splitPairExists, List.any_eq_true]
  refine ⟨i, List.mem_range.mpr hi, ?_⟩
  rw [List.any_eq_true]
  refine ⟨j, List.mem_range.mpr hj, ?_⟩
  rw [Bool.and_eq_true]
  refine ⟨decide_eq_true hne, ?_⟩
  rw [slotIsPair, hsi, hsj]
  simp [hdi, hdj, hq]

/-- **C4 (amended).** For every contained item whose provenance flags are
clear (the state any absorbed instance is in), with `0 ≤ k ≤ quantity` and
quantity within the stack bound, if `|Contents| + 1 ≤ SlotsCapacity` then
after `SplitExistingStack(item, k)` two distinct entries with the item's
ID have quantities summing to the original quantity; and whenever
`|Contents| + 1 > SlotsCapacity` the operation returns the state
unchanged. -/
theorem C4_split_amended :
    (∀ (inv : Inventory) (r : Nat) (k : Int) (d : ItemData) (i : Nat)
        (inv1 : Inventory), inv.Heap[r]? = some d →
      inv.InventoryContents[i]? = some r →
      d.bIsCopy = false → d.bIsPickup = false →
      0 ≤ k → k ≤ d.Quantity → d.Quantity ≤ d.quantityCap →
      (inv.InventoryContents.length : Int) + 1 ≤ inv.InventorySlotsCapacity →
      SplitExistingStack inv r k = Except.ok inv1 →
      splitPairExists inv1 d.ID d.Quantity = true) ∧
    (∀ inv r k, (inv.InventoryContents.length : Int) + 1 > inv.InventorySlotsCapacity →
      SplitExistingStack inv r k = Except.ok inv) := by
  constructor
  · intro inv r k d i inv1 hd hi hc hp hk0 hkq hqc hcap hsplit
    have hcap2 : ¬((inv.InventoryContents.length : Int) + 1 >
        inv.InventorySlotsCapacity) := by omega
    have hr : r < inv.Heap.length := (List.getElem?_eq_some.mp hd).1
    have hiL : i < inv.InventoryContents.length := (List.getElem?_eq_some.mp hi).1
    have hsp := (SplitExistingStack_eq_of_le hcap2
      (RemoveAmountOfItem_eq k hd)).symm.trans hsplit
    have hlook : (inv.Heap.set r (d.SetQuantity (d.Quantity - min k d.Quantity)))[r]?
        = some (d.SetQuantity (d.Quantity - min k d.Quantity)) :=
      List.getElem?_set_eq_of_lt _ hr
    have hflag : ((d.SetQuantity (d.Quantity - min k d.Quantity)).bIsCopy
        || (d.SetQuantity (d.Quantity - min k d.Quantity)).bIsPickup) = false := by
      simp [ItemData.SetQuantity, hc, hp]
    rw [AddNewItem_eq_fresh k hlook hflag] at hsp
    injection hsp with hsp
    subst hsp
    refine splitPairExists_intro i inv.InventoryContents.length
      (d.SetQuantity (d.Quantity - min k d.Quantity))
      { (d.SetQuantity (d.Quantity - min k d.Quantity)).CreateItemCopy.SetQuantity k
          with Owned := true }
      (by omega) ?_ ?_ ?_ ?_ ?_ ?_ ?_
    · show i < (inv.InventoryContents ++
        [(inv.Heap.set r (d.SetQuantity (d.Quantity - min k d.Quantity))).length]).length
      simp only [List.length_append, List.length_singleton]
      omega
    · show inv.InventoryContents.length < (inv.InventoryContents ++
        [(inv.Heap.set r (d.SetQuantity (d.Quantity - min k d.Quantity))).length]).length
      simp only [List.length_append, List.length_singleton]
      omega
    · simp only [slotItem]
      rw [(List.getElem?_append_left hiL).trans hi]
      dsimp only
      rw [List.getElem?_append_left (by simpa using hr)]
      exact hlook
    · simp only [slotItem]
      rw [List.getElem?_concat_length inv.InventoryContents
        ((inv.Heap.set r (d.SetQuantity (d.Quantity - min k d.Quantity))).length)]
      dsimp only
      exact List.getElem?_concat_length _ _
    · simp [ItemData.SetQuantity]
    · simp [ItemData.SetQuantity, ItemData.CreateItemCopy]
    · have hmin : min k d.Quantity = k := min_eq_left hkq
      have hcapEq : ((d.SetQuantity (d.Quantity - min k d.Quantity)).CreateItemCopy).quantityCap
          = d.quantityCap := rfl
      have e1 : (d.SetQuantity (d.Quantity - min k d.Quantity)).Quantity
          = d.Quantity - k := by
        rw [hmin]
        exact SetQuantity_Quantity_of_bounds (by omega) (by omega)
      have e2 : (({ (d.SetQuantity (d.Quantity - min k d.Quantity)).CreateItemCopy.SetQuantity k
          with Owned := true } : ItemData)).Quantity = k := by
        show ((d.SetQuantity (d.Quantity - min k d.Quantity)).CreateItemCopy.SetQuantity k).Quantity = k
        rw [SetQuantity_Quantity_of_bounds hk0 (by rw [hcapEq]; omega)]
      rw [e1, e2]
      omega
  · intro inv r k h
    exact SplitExistingStack_eq_of_gt h

/-- Witness for C4 (amended): splitting 2 off a 6-stack at `C4winv`. -/
theorem C4_split_amended_witness :
    ∃ inv1, SplitExistingStack C4winv 0 2 = Except.ok inv1 ∧
      splitPairExists inv1 1 6 = true := by
  have hsplit := (SplitExistingStack_eq_of_le (by decide)
      (RemoveAmountOfItem_eq 2 (show C4winv.Heap[0]? = some _ from rfl))).trans
      (AddNewItem_eq_fresh 2 rfl rfl)
  exact ⟨_, hsplit, C4_split_amended.1 C4winv 0 2
    ⟨1, 6, 0, 10, true, "Gem", false, false, true⟩ 0 _ rfl rfl rfl rfl
    (by decide) (by decide) (by decide) (by decide) hsplit⟩

/-! ### C1 -/

theorem AddNewItem_weightInv {inv inv1 : Inventory} {r : Nat} {amt : Int}
    {d : ItemData}
    (hwf : inv.wfRefs) (hd : inv.Heap[r]? = some d)
    (hnm : (d.bIsCopy || d.bIsPickup) = true → r ∉ inv.InventoryContents)
    (hW : WeightInvariant inv) (h : AddNewItem inv r amt = Except.ok inv1) :
    WeightInvariant inv1 := by
  have hr : r < inv.Heap.length := (List.getElem?_eq_some.mp hd).1
  by_cases hf : (d.bIsCopy || d.bIsPickup) = true
  · rw [AddNewItem_eq_absorb amt hd hf] at h
    injection h with h
    subst h
    simp only [WeightInvariant, trueWeight]
    rw [List.map_append, List.sum_append, sum_map_entryWeight_set_not_mem (hnm hf)]
    simp only [List.map_cons, List.map_nil, List.sum_cons, List.sum_nil]
    rw [entryWeight_set_self hr]
    simp only [WeightInvariant, trueWeight] at hW
    rw [hW]
    ring
  · have hf2 : (d.bIsCopy || d.bIsPickup) = false := by
      revert hf
      cases d.bIsCopy || d.bIsPickup <;> simp
    rw [AddNewItem_eq_fresh amt hd hf2] at h
    injection h with h
    subst h
    simp only [WeightInvariant, trueWeight]
    rw [List.map_append, List.sum_append, sum_map_entryWeight_append hwf]
    simp only [List.map_cons, List.map_nil, List.sum_cons, List.sum_nil]
    rw [entryWeight_concat_self]
    simp only [WeightInvariant, trueWeight] at hW
    rw [hW]
    ring

theorem RemoveAmountOfItem_weightInv {inv inv1 : Inventory} {r : Nat} {n a : Int}
    {d : ItemData}
    (hnd : inv.InventoryContents.Nodup) (hm : r ∈ inv.InventoryContents)
    (hd : inv.Heap[r]? = some d) (hn : 0 ≤ n)
    (hq0 : 0 ≤ d.Quantity) (hqc : d.Quantity ≤ d.quantityCap)
    (hW : WeightInvariant inv)
    (h : RemoveAmountOfItem inv r n = Except.ok (inv1, a)) :
    WeightInvariant inv1 := by
  have hr : r < inv.Heap.length := (List.getElem?_eq_some.mp hd).1
  rw [RemoveAmountOfItem_eq n hd] at h
  injection h with h
  have h1 : _ = inv1 := congrArg Prod.fst h
  subst h1
  simp only [WeightInvariant, trueWeight]
  rw [sum_map_entryWeight_set_mem hnd hm hr, entryWeight_of_lookup hd,
    SetQuantity_of_bounds (by omega) (by omega)]
  simp only [WeightInvariant, trueWeight] at hW
  rw [← hW]
  simp only [ItemData.GetItemStackWeight, ItemData.GetItemSingleWeight]
  push_cast
  ring

theorem RemoveSingleInstanceOfItem_weightInv {inv : Inventory} {r : Nat}
    (hz : r ∉ inv.InventoryContents ∨ entryWeight inv.Heap r = 0)
    (hW : WeightInvariant inv) :
    WeightInvariant (RemoveSingleInstanceOfItem inv r) := by
  simp only [WeightInvariant, trueWeight, RemoveSingleInstanceOfItem] at hW ⊢
  rcases hz with hz | hz
  · rw [List.erase_of_not_mem hz]
    exact hW
  · by_cases hm : r ∈ inv.InventoryContents
    · rw [sum_map_erase (entryWeight inv.Heap) hm, hz, hW]
      ring
    · rw [List.erase_of_not_mem hm]
      exact hW

theorem SplitExistingStack_weightInv {inv inv1 : Inventory} {r : Nat} {k : Int}
    {d : ItemData}
    (hwf : inv.wfRefs) (hnd : inv.InventoryContents.Nodup)
    (hm : r ∈ inv.InventoryContents) (hd : inv.Heap[r]? = some d)
    (hc : d.bIsCopy = false) (hp : d.bIsPickup = false)
    (hk0 : 0 ≤ k) (hq0 : 0 ≤ d.Quantity) (hqc : d.Quantity ≤ d.quantityCap)
    (hW : WeightInvariant inv)
    (h : SplitExistingStack inv r k = Except.ok inv1) :
    WeightInvariant inv1 := by
  by_cases hcap : (inv.InventoryContents.length : Int) + 1 > inv.InventorySlotsCapacity
  · rw [SplitExistingStack_eq_of_gt hcap] at h
    injection h with h
    exact h ▸ hW
  · have hr : r < inv.Heap.length := (List.getElem?_eq_some.mp hd).1
    have h1 := RemoveAmountOfItem_eq k hd
    rw [SplitExistingStack_eq_of_le hcap h1] at h
    have hW2 := RemoveAmountOfItem_weightInv hnd hm hd hk0 hq0 hqc hW h1
    refine AddNewItem_weightInv ?_ (List.getElem?_set_eq_of_lt _ hr) ?_ hW2 h
    · intro c hcm
      have := hwf c hcm
      simpa using this
    · intro hft
      exact absurd hft (by simp [ItemData.SetQuantity, hc, hp])

theorem HandleAddItem_weightInv {inv inv1 : Inventory} {r : Nat}
    {res : FItemAddResult}
    (hwf : inv.wfRefs)
    (hnm : ∀ d, inv.Heap[r]? = some d → (d.bIsCopy || d.bIsPickup) = true →
      r ∉ inv.InventoryContents)
    (hW : WeightInvariant inv)
    (h : HandleAddItem inv r = Except.ok (inv1, res)) :
    WeightInvariant inv1 := by
  rcases HandleAddItem_shape h with h1 | h1
  · rw [h1]
    exact hW
  · rcases HandleNonStackableItems_shape h1 with h2 | ⟨hcap, h2⟩
    · rw [h2]
      exact hW
    · cases hl : inv.Heap[r]? with
      | none => simp [AddNewItem, hl] at h2
      | some d => exact AddNewItem_weightInv hwf hl (hnm d hl) hW h2

/-- **C1 (amended).** The cached-weight invariant
`InventoryTotalWeight = Σ quantity × single weight` over
`InventoryContents` is preserved by `AddNewItem` (on a valid reference
that is not already contained when the absorb branch runs), by
`RemoveAmountOfItem` (on a contained, duplicate-free item with
non-negative requested amount and in-bound quantity), by
`SplitExistingStack` (likewise, with clear provenance flags), and by
`HandleAddItem`; `RemoveSingleInstanceOfItem`, which never adjusts
`InventoryTotalWeight`, preserves it only when the removed reference is
absent or its entry's stack weight is zero. -/
theorem C1_weight_invariant_amended :
    (∀ (inv : Inventory) (r : Nat) (amt : Int) (d : ItemData) (inv1 : Inventory),
      inv.wfRefs → inv.Heap[r]? = some d →
      ((d.bIsCopy || d.bIsPickup) = true → r ∉ inv.InventoryContents) →
      WeightInvariant inv → AddNewItem inv r amt = Except.ok inv1 →
      WeightInvariant inv1) ∧
    (∀ (inv : Inventory) (r : Nat) (n a : Int) (d : ItemData) (inv1 : Inventory),
      inv.InventoryContents.Nodup → r ∈ inv.InventoryContents →
      inv.Heap[r]? = some d → 0 ≤ n → 0 ≤ d.Quantity → d.Quantity ≤ d.quantityCap →
      WeightInvariant inv → RemoveAmountOfItem inv r n = Except.ok (inv1, a) →
      WeightInvariant inv1) ∧
    (∀ (inv : Inventory) (r : Nat) (k : Int) (d : ItemData) (inv1 : Inventory),
      inv.wfRefs → inv.InventoryContents.Nodup → r ∈ inv.InventoryContents →
      inv.Heap[r]? = some d → d.bIsCopy = false → d.bIsPickup = false →
      0 ≤ k → 0 ≤ d.Quantity → d.Quantity ≤ d.quantityCap →
      WeightInvariant inv → SplitExistingStack inv r k = Except.ok inv1 →
      WeightInvariant inv1) ∧
    (∀ (inv : Inventory) (r : Nat) (inv1 : Inventory) (res : FItemAddResult),
      inv.wfRefs →
      (∀ d, inv.Heap[r]? = some d → (d.bIsCopy || d.bIsPickup) = true →
        r ∉ inv.InventoryContents) →
      WeightInvariant inv → HandleAddItem inv r = Except.ok (inv1, res) →
      WeightInvariant inv1) ∧
    (∀ (inv : Inventory) (r : Nat),
      (r ∉ inv.InventoryContents ∨ entryWeight inv.Heap r = 0) →
      WeightInvariant inv →
      WeightInvariant (RemoveSingleInstanceOfItem inv r)) :=
  ⟨fun _ _ _ _ _ hwf hd hnm hW h => AddNewItem_weightInv hwf hd hnm hW h,
   fun _ _ _ _ _ _ hnd hm hd hn hq0 hqc hW h =>
     RemoveAmountOfItem_weightInv hnd hm hd hn hq0 hqc hW h,
   fun _ _ _ _ _ hwf hnd hm hd hc hp hk0 hq0 hqc hW h =>
     SplitExistingStack_weightInv hwf hnd hm hd hc hp hk0 hq0 hqc hW h,
   fun _ _ _ _ hwf hnm hW h => HandleAddItem_weightInv hwf hnm hW h,
   fun _ _ hz hW => RemoveSingleInstanceOfItem_weightInv hz hW⟩

/-- **C1 (counterexample).** `C1cinv` satisfies the weight invariant, but
after `RemoveSingleInstanceOfItem` — which removes the entry without
touching `InventoryTotalWeight` (source lines 68–72) — the cached weight
is 1 while the contents sum is 0, so the claimed preservation by
`RemoveSingleInstanceOfItem` fails. -/
theorem C1_remove_single_counterexample :
    WeightInvariant C1cinv ∧
    ¬ WeightInvariant (RemoveSingleInstanceOfItem C1cinv 0) := by
  constructor
  · simp [WeightInvariant, trueWeight, C1cinv, entryWeight,
      ItemData.GetItemStackWeight]
  · intro hcon
    have hpost : RemoveSingleInstanceOfItem C1cinv 0 =
        ⟨[⟨3, 1, 1, 5, true, "Coal", false, false, true⟩],
          [], 1, 10, 100, true, 1⟩ := rfl
    rw [hpost] at hcon
    simp only [WeightInvariant, trueWeight, List.map_nil, List.sum_nil] at hcon
    exact one_ne_zero hcon

/-- Witness for C1 (amended): all five conjuncts applied at `C1winv`. -/
theorem C1_weight_invariant_amended_witness :
    (∃ inv1, AddNewItem C1winv 0 1 = Except.ok inv1 ∧ WeightInvariant inv1) ∧
    (∃ inv1 a, RemoveAmountOfItem C1winv 0 1 = Except.ok (inv1, a) ∧
      WeightInvariant inv1) ∧
    (∃ inv1, SplitExistingStack C1winv 0 1 = Except.ok inv1 ∧
      WeightInvariant inv1) ∧
    (∃ inv1 res, HandleAddItem C1winv 0 = Except.ok (inv1, res) ∧
      WeightInvariant inv1) ∧
    WeightInvariant (RemoveSingleInstanceOfItem C1winv 0) := by
  have hW : WeightInvariant C1winv := by
    simp [WeightInvariant, trueWeight, C1winv, entryWeight,
      ItemData.GetItemStackWeight]
  refine ⟨?_, ?_, ?_, ?_, ?_⟩
  · have h := AddNewItem_eq_fresh 1 (show C1winv.Heap[0]? = some _ from rfl) rfl
    exact ⟨_, h, C1_weight_invariant_amended.1 C1winv 0 1 _ _ (by
      show ∀ c ∈ C1winv.InventoryContents, c < C1winv.Heap.length
      decide) rfl
      (fun hft => absurd hft (by decide)) hW h⟩
  · have h := RemoveAmountOfItem_eq 1 (show C1winv.Heap[0]? = some _ from rfl)
    exact ⟨_, _, h, C1_weight_invariant_amended.2.1 C1winv 0 1 _ _ _ (by decide)
      (by decide) rfl (by decide) (by decide) (by decide) hW h⟩
  · have h := (SplitExistingStack_eq_of_le (by decide)
      (RemoveAmountOfItem_eq 1 (show C1winv.Heap[0]? = some _ from rfl))).trans
      (AddNewItem_eq_fresh 1 rfl rfl)
    exact ⟨_, h, C1_weight_invariant_amended.2.2.1 C1winv 0 1 _ _ (by
      show ∀ c ∈ C1winv.InventoryContents, c < C1winv.Heap.length
      decide)
      (by decide) (by decide) rfl rfl rfl (by decide) (by decide) (by decide) hW h⟩
  · have h : HandleAddItem C1winv 0 = Except.ok
        (C1winv, FItemAddResult.AddedNone (MsgNoSlotsInvalid ("Coal"))) := rfl
    exact ⟨_, _, h, C1_weight_invariant_amended.2.2.2.1 C1winv 0 _ _ (by
      show ∀ c ∈ C1winv.InventoryContents, c < C1winv.Heap.length
      decide)
      (fun d hdl => by
        injection hdl with he
        subst he
        intro hft
        exact absurd hft (by decide)) hW h⟩
  · exact C1_weight_invariant_amended.2.2.2.2 C1winv 0
      (Or.inr (by simp [C1winv, entryWeight, ItemData.GetItemStackWeight])) hW
